import Mathlib

/-!
Verification development for the option backtest engine of this repository
(backtest_engine.py, strategy_config.py, signal_optimization/signal_library.py).

The embedding uses exact rationals for the float arithmetic of the source.
The numpy exponential is kept as an explicit function parameter `E`, so every
statement quantifies over it; where a concrete instance is needed the
development only ever evaluates `E` at argument 0, where the mathematical
exponential equals 1.  Where IEEE special values matter (pandas division by
zero in the RSI and sharpe computations) a dedicated value type `FloatVal`
with plus/minus infinity and NaN models the numpy semantics exactly.
-/

/-- Python `int(x)` conversion: truncation toward zero (the numerator of the
reduced fraction divided by the denominator, rounding toward zero). -/
def pyInt (q : ℚ) : ℤ := q.num.tdiv q.den

/-! ## Option valuation model

Embeds `OptionBacktest._estimate_option_value` (backtest_engine.py lines
715-763) and the identical `DynamicOTMSelector._estimate_option_price`
(strategy_config.py lines 228-253).  The direction is `isCall : Bool`
(`'long_call'` / `is_call=True` ↔ `true`). -/

/-- Intrinsic value: `max(spot - strike, 0)` for a call, `max(strike - spot, 0)`
for a put. -/
def intrinsicValue (spot strike : ℚ) (isCall : Bool) : ℚ :=
  if isCall then max (spot - strike) 0 else max (strike - spot) 0

/-- Time value of the estimator, with the numpy exponential abstracted as `E`:
for positive days to expiry it is
`max (spot * 0.015 * (dte / 30) * E (-(moneyness * 5))) 0.05` with
`moneyness = |spot - strike| / spot`, and it is 0 otherwise. -/
def timeValue (E : ℚ → ℚ) (spot strike : ℚ) (daysToExpiry : ℤ) : ℚ :=
  if 0 < daysToExpiry then
    let moneyness := |spot - strike| / spot
    let baseTimeValue := spot * (3 / 200) * ((daysToExpiry : ℚ) / 30)
    let otmFactor := E (-(moneyness * 5))
    max (baseTimeValue * otmFactor) (1 / 20)
  else 0

/-- Estimated option premium: intrinsic value plus time value. -/
def estimateOptionValue (E : ℚ → ℚ) (spot strike : ℚ) (isCall : Bool)
    (daysToExpiry : ℤ) : ℚ :=
  intrinsicValue spot strike isCall + timeValue E spot strike daysToExpiry

/-- Constant-one function, used to instantiate the abstract exponential `E` in
closed statements.  Every such statement only evaluates `E` at argument 0
(at-the-money inputs, or inputs with nonpositive days to expiry where the
exponential is never evaluated at all), and the exponential of 0 is 1. -/
def constOne : ℚ → ℚ := fun _ => 1

/-- Modelled from the spec (section 4.5): the claimed functional form of the
time value, `spot * baseline_rate * sqrt(days_to_expiry/252) * decay(moneyness)`
for some fixed constant `baseline_rate` and some function `decay` of
`|spot-strike|/spot`.  Requiring nothing further of `decay` only makes the
property easier to satisfy, so refuting this form refutes the spec sentence. -/
def specSqrtTimeValueForm (tv : ℚ → ℚ → ℤ → ℚ) : Prop :=
  ∃ (r : ℝ) (g : ℝ → ℝ), ∀ (spot strike : ℚ) (dte : ℤ),
    0 < spot → 0 < dte →
      ((tv spot strike dte : ℚ) : ℝ) =
        (spot : ℝ) * r * Real.sqrt ((dte : ℝ) / 252) *
          g (|(spot : ℝ) - (strike : ℝ)| / (spot : ℝ))

/-- The corrected functional form: linear scaling `dte / 30` with a fixed base
rate, a positive decreasing decay factor of moneyness, a floor of 0.05, and a
zero time value once days to expiry is nonpositive. -/
def linearTimeValueForm (tv : ℚ → ℚ → ℤ → ℚ) : Prop :=
  ∃ (r floorVal : ℚ) (g : ℚ → ℚ),
    (∀ x y : ℚ, 0 ≤ x → x ≤ y → g y ≤ g x) ∧
    (∀ x : ℚ, 0 < g x) ∧
    (∀ (spot strike : ℚ) (dte : ℤ), 0 < spot → 0 < dte →
      tv spot strike dte =
        max (spot * r * ((dte : ℚ) / 30) * g (|spot - strike| / spot)) floorVal) ∧
    (∀ (spot strike : ℚ) (dte : ℤ), dte ≤ 0 → tv spot strike dte = 0)

/-! ## Strike selector

Embeds `DynamicOTMSelector` (strategy_config.py lines 31-165).  The sequential
reassignments of `base_strategy` in `select_otm_strategy` are the composition
of one function per adjustment stage. -/

/-- The fixed ladder of risk profiles. -/
inductive RiskProfile
  | ultraConservative
  | conservative
  | balanced
  | moderate
  | aggressive
  | speculative
deriving DecidableEq, Repr

/-- Position of a profile on the ladder
ultra_conservative < conservative < balanced < moderate < aggressive <
speculative. -/
def rung : RiskProfile → ℕ
  | .ultraConservative => 0
  | .conservative => 1
  | .balanced => 2
  | .moderate => 3
  | .aggressive => 4
  | .speculative => 5

/-- Distance between two profiles on the ladder, in rungs. -/
def rungDist (a b : RiskProfile) : ℤ := |(rung a : ℤ) - (rung b : ℤ)|

/-- One OTM strategy configuration entry. -/
structure OTMConfig where
  callMultiplier : ℚ
  putMultiplier : ℚ
  name : String
  expectedMove : ℚ
  winRate : ℚ
  leverage : ℚ
deriving DecidableEq, Repr

/-- The `STRATEGIES` table of `DynamicOTMSelector`. -/
def strategies : RiskProfile → OTMConfig
  | .ultraConservative =>
      ⟨102/100, 98/100, "Ultra Conservative (2% OTM)", 2/100, 70/100, 15⟩
  | .conservative =>
      ⟨105/100, 95/100, "Conservative (5% OTM)", 5/100, 60/100, 8⟩
  | .balanced =>
      ⟨108/100, 92/100, "Balanced (8% OTM)", 8/100, 50/100, 5⟩
  | .moderate =>
      ⟨112/100, 88/100, "Moderate (12% OTM)", 12/100, 40/100, 4⟩
  | .aggressive =>
      ⟨115/100, 85/100, "Aggressive (15% OTM)", 15/100, 30/100, 7/2⟩
  | .speculative =>
      ⟨120/100, 80/100, "Speculative (20% OTM)", 20/100, 20/100, 3⟩

/-- Stage 1: volatility-implied base profile. -/
def baseFromVol (volatility : ℚ) : RiskProfile :=
  if 7/10 < volatility then .conservative
  else if 1/2 < volatility then .balanced
  else if 3/10 < volatility then .moderate
  else .aggressive

/-- Stage 2: momentum adjustment. -/
def momentumAdjust (momentum : ℚ) (s : RiskProfile) : RiskProfile :=
  if 1/2 < |momentum| then
    if s = .conservative ∧ 7/10 < |momentum| then .balanced
    else if s = .balanced ∧ 4/5 < |momentum| then .moderate
    else s
  else s

/-- Stage 3: Bollinger-band percentile adjustment. -/
def bbAdjust (bbPercentile : ℚ) (s : RiskProfile) : RiskProfile :=
  if bbPercentile < 3/10 then
    if s = .conservative then .balanced
    else if s = .balanced then .moderate
    else s
  else if 7/10 < bbPercentile then
    if s = .moderate then .balanced
    else if s = .aggressive then .moderate
    else s
  else s

/-- Stage 4: time-to-expiry adjustment. -/
def dteAdjust (daysToExpiry : ℤ) (s : RiskProfile) : RiskProfile :=
  if daysToExpiry < 15 then
    if s = .aggressive ∨ s = .speculative then .moderate
    else if s = .moderate then .balanced
    else s
  else s

/-- Stage 5: user risk-appetite adjustment.  The appetite is the raw string of
the source; unknown strings leave the profile unchanged (the `shift_map.get`
default). -/
def riskAdjust (riskAppetite : String) (s : RiskProfile) : RiskProfile :=
  if riskAppetite = "ultra_conservative" then
    if s ≠ .ultraConservative then .conservative else s
  else if riskAppetite = "aggressive" then
    match s with
    | .conservative => .balanced
    | .balanced => .moderate
    | .moderate => .aggressive
    | x => x
  else s

/-- The profile chosen by `select_otm_strategy`: the five stages applied in the
fixed source order. -/
def selectProfile (volatility momentum bbPercentile : ℚ) (daysToExpiry : ℤ)
    (riskAppetite : String) : RiskProfile :=
  riskAdjust riskAppetite
    (dteAdjust daysToExpiry
      (bbAdjust bbPercentile
        (momentumAdjust momentum
          (baseFromVol volatility))))

/-- `select_otm_strategy` returns the `STRATEGIES` entry of the chosen
profile. -/
def selectOtmStrategy (volatility momentum bbPercentile : ℚ) (daysToExpiry : ℤ)
    (riskAppetite : String) : OTMConfig :=
  strategies (selectProfile volatility momentum bbPercentile daysToExpiry riskAppetite)

/-! ## IEEE-style value type

Models the numpy/pandas float special values that the degenerate-case claims
are about.  Finite values are exact rationals; only the operations the source
performs on possibly-degenerate data are provided, each following the IEEE 754
rules numpy implements. -/

/-- A float value: finite rational, plus/minus infinity, or NaN. -/
inductive FloatVal
  | fin (q : ℚ)
  | pinf
  | ninf
  | nan
deriving DecidableEq, Repr

namespace FloatVal

/-- IEEE negation. -/
def neg : FloatVal → FloatVal
  | fin q => fin (-q)
  | pinf => ninf
  | ninf => pinf
  | nan => nan

/-- IEEE addition. -/
def add : FloatVal → FloatVal → FloatVal
  | nan, _ => nan
  | _, nan => nan
  | fin a, fin b => fin (a + b)
  | pinf, ninf => nan
  | ninf, pinf => nan
  | pinf, _ => pinf
  | _, pinf => pinf
  | ninf, _ => ninf
  | _, ninf => ninf

/-- IEEE subtraction. -/
def sub (a b : FloatVal) : FloatVal := add a (neg b)

/-- IEEE multiplication. -/
def mul : FloatVal → FloatVal → FloatVal
  | nan, _ => nan
  | _, nan => nan
  | fin a, fin b => fin (a * b)
  | fin a, pinf => if 0 < a then pinf else if a < 0 then ninf else nan
  | pinf, fin a => if 0 < a then pinf else if a < 0 then ninf else nan
  | fin a, ninf => if 0 < a then ninf else if a < 0 then pinf else nan
  | ninf, fin a => if 0 < a then ninf else if a < 0 then pinf else nan
  | pinf, pinf => pinf
  | pinf, ninf => ninf
  | ninf, pinf => ninf
  | ninf, ninf => pinf

/-- IEEE division.  Finite over zero gives a signed infinity, zero over zero
gives NaN — the numpy behaviour behind the degenerate-ratio claims. -/
def div : FloatVal → FloatVal → FloatVal
  | nan, _ => nan
  | _, nan => nan
  | fin a, fin b =>
      if b ≠ 0 then fin (a / b)
      else if 0 < a then pinf
      else if a < 0 then ninf
      else nan
  | fin _, pinf => fin 0
  | fin _, ninf => fin 0
  | pinf, fin b => if 0 ≤ b then pinf else ninf
  | ninf, fin b => if 0 ≤ b then ninf else pinf
  | pinf, _ => nan
  | ninf, _ => nan

/-- NaN test, for the pandas `dropna` filter. -/
def isNaN : FloatVal → Bool
  | nan => true
  | _ => false

/-- Square root; the exact root of a positive rational is generally
irrational, so the value on positive finite arguments is supplied as `sqrtFn`.
Zero and negative arguments are handled exactly as numpy does (0 and NaN). -/
def sqrtVal (sqrtFn : ℚ → ℚ) : FloatVal → FloatVal
  | nan => nan
  | pinf => pinf
  | ninf => nan
  | fin q => if q < 0 then nan else if q = 0 then fin 0 else fin (sqrtFn q)

/-- Sum of a list of float values. -/
def listSum (l : List FloatVal) : FloatVal := l.foldr add (fin 0)

end FloatVal

/-! ## RSI

Embeds the RSI block of `OptionBacktest._calculate_indicators`
(backtest_engine.py lines 469-474), identical in
`SignalLibrary.calculate_all_indicators` (signal_library.py lines 31-36):
`delta = close.diff(); gain = delta.where(delta > 0, 0).rolling(14).mean();
loss = (-delta.where(delta < 0, 0)).rolling(14).mean(); rs = gain / loss;
rsi = 100 - 100 / (1 + rs)`. -/

/-- Day-over-day close differences (`close.diff()`, without the leading NaN:
entry `j` is the diff at close index `j + 1`). -/
def deltas (closes : List ℚ) : List ℚ :=
  (closes.zip closes.tail).map (fun p => p.2 - p.1)

/-- Average gain over the 14-diff window ending at close index `i`
(requires `14 ≤ i`). -/
def avgGain (closes : List ℚ) (i : ℕ) : ℚ :=
  ((((deltas closes).drop (i - 14)).take 14).map (fun d => max d 0)).sum / 14

/-- Average loss over the 14-diff window ending at close index `i`
(requires `14 ≤ i`). -/
def avgLoss (closes : List ℚ) (i : ℕ) : ℚ :=
  ((((deltas closes).drop (i - 14)).take 14).map (fun d => max (-d) 0)).sum / 14

/-- RSI at close index `i`.  Outside the warm-up window pandas produces NaN;
inside it the value is `100 - 100 / (1 + gain / loss)` under IEEE float
semantics, so a zero average loss makes `rs` infinite or NaN. -/
def rsiAt (closes : List ℚ) (i : ℕ) : FloatVal :=
  if 14 ≤ i ∧ i < closes.length then
    let rs := FloatVal.div (.fin (avgGain closes i)) (.fin (avgLoss closes i))
    FloatVal.sub (.fin 100) (FloatVal.div (.fin 100) (FloatVal.add (.fin 1) rs))
  else .nan

/-! ## Sharpe-like ratio

Embeds the sharpe computation of `OptionBacktest._calculate_results`
(backtest_engine.py lines 836-838):
`daily_returns = equity.pct_change().dropna()` and
`sharpe = (daily_returns.mean() / daily_returns.std() * np.sqrt(252))
if len(daily_returns) > 0 else 0`.  The pandas standard deviation uses
`ddof = 1`, so a single return gives `0 / 0 = NaN`. -/

/-- Daily percentage changes of an equity curve after `dropna`: pandas drops
the leading NaN and any `0 / 0` entry; infinities remain. -/
def dailyReturns (equity : List ℚ) : List FloatVal :=
  ((equity.zip equity.tail).map
    (fun p => FloatVal.sub (FloatVal.div (.fin p.2) (.fin p.1)) (.fin 1))).filter
    (fun x => !x.isNaN)

/-- Mean of a list of float values (`sum / n`). -/
def meanVal (l : List FloatVal) : FloatVal :=
  FloatVal.div (FloatVal.listSum l) (.fin l.length)

/-- Sample variance with `ddof = 1`: sum of squared deviations over `n - 1`
(for `n = 1` this is `0 / 0 = NaN`, as in pandas). -/
def varVal (l : List FloatVal) : FloatVal :=
  FloatVal.div
    (FloatVal.listSum (l.map (fun x =>
      FloatVal.mul (FloatVal.sub x (meanVal l)) (FloatVal.sub x (meanVal l)))))
    (.fin ((l.length : ℤ) - 1 : ℤ))

/-- Sample standard deviation: square root of the sample variance. -/
def stdVal (sqrtFn : ℚ → ℚ) (l : List FloatVal) : FloatVal :=
  FloatVal.sqrtVal sqrtFn (varVal l)

/-- The sharpe-like ratio of an equity curve.  `sqrt252` is the float value of
`np.sqrt(252)`, kept as a parameter since it is irrational. -/
def sharpeRatioOf (sqrtFn : ℚ → ℚ) (sqrt252 : ℚ) (equity : List ℚ) : FloatVal :=
  let dr := dailyReturns equity
  if 0 < dr.length then
    FloatVal.mul (FloatVal.div (meanVal dr) (stdVal sqrtFn dr)) (.fin sqrt252)
  else .fin 0

/-! ## Backtest state machine

Embeds `OptionBacktest.run_backtest` (backtest_engine.py lines 97-367) and its
helpers.  Dates are day numbers (integers); daily bars carry the date and the
close, the only bar fields the trade lifecycle reads.  The external
collaborators are abstracted as an environment record and the theorems
quantify over it:
- `expFn` is the numpy exponential of the valuation model;
- `oracle` is `_fetch_real_option_price` (the Polygon request): `none` models
  every failure path, and a returned price is used only when positive, exactly
  as `_get_option_price` does;
- `enter` abstracts `_check_entry_signal` with the configured entry signal;
- `direction` abstracts the strategy parameter and the auto direction
  selection (`true` ↔ `'long_call'`);
- `strikeOf` abstracts the dynamic strike selection
  (`DynamicOTMSelector` + `_round_strike`). -/

/-- One daily bar. -/
structure Bar where
  date : ℤ
  close : ℚ
deriving DecidableEq, Repr

/-- Trade status: `'open'`, `'closed'` or `'expired'`. -/
inductive TradeStatus
  | opened
  | closed
  | expired
deriving DecidableEq, Repr

/-- A trade record (the `Trade` dataclass). -/
structure Trade where
  entryDate : ℤ
  isCall : Bool
  strike : ℚ
  entryPrice : ℚ
  shares : ℤ
  expiry : ℤ
  entryUnderlying : ℚ
  exitDate : Option ℤ := none
  exitPrice : Option ℚ := none
  pnl : Option ℚ := none
  pnlPct : Option ℚ := none
  status : TradeStatus := .opened
  exitUnderlying : Option ℚ := none
deriving DecidableEq, Repr

/-- Backtest configuration parameters of `run_backtest`. -/
structure BTConfig where
  initialCapital : ℚ := 10000
  profitTarget : ℚ := 1/2
  stopLoss : ℚ := -4/5
  maxHoldingDays : ℤ := 30
  positionSize : ℚ := 1/10
deriving DecidableEq, Repr

/-- Abstracted external collaborators of the engine. -/
structure BTEnv where
  expFn : ℚ → ℚ
  oracle : ℤ → ℚ → ℚ → Bool → ℤ → Option ℚ
  enter : ℕ → Bar → Bool
  direction : ℕ → Bar → Bool
  strikeOf : ℕ → Bar → ℚ

/-- `_get_option_price`: a positive oracle price when available, otherwise the
deterministic estimate. -/
def getOptionPrice (env : BTEnv) (date : ℤ) (spot strike : ℚ) (isCall : Bool)
    (daysToExpiry : ℤ) : ℚ :=
  match env.oracle date spot strike isCall daysToExpiry with
  | some p =>
      if 0 < p then p else estimateOptionValue env.expFn spot strike isCall daysToExpiry
  | none => estimateOptionValue env.expFn spot strike isCall daysToExpiry

/-- Exit reasons, one distinct tag per trigger of `_check_exit_conditions`;
`noExit` is the empty-string reason of the no-trigger result. -/
inductive ExitReason
  | profitTargetHit
  | stopLossHit
  | maxHoldingHit
  | expiryHit
  | noExit
deriving DecidableEq, Repr

/-- `_check_exit_conditions` (backtest_engine.py lines 544-585): reprices the
position, then tests profit target, stop loss, maximum holding days and expiry
in that order. -/
def checkExitConditions (env : BTEnv) (t : Trade) (currentDate : ℤ)
    (currentPrice : ℚ) (profitTarget stopLoss : ℚ) (maxHoldingDays : ℤ) :
    Bool × ExitReason :=
  let daysToExpiry := t.expiry - currentDate
  let currentValue := getOptionPrice env currentDate currentPrice t.strike t.isCall daysToExpiry
  let pnlPct := (currentValue - t.entryPrice) / t.entryPrice
  let holdingDays := currentDate - t.entryDate
  if profitTarget ≤ pnlPct then (true, .profitTargetHit)
  else if pnlPct ≤ stopLoss then (true, .stopLossHit)
  else if maxHoldingDays ≤ holdingDays then (true, .maxHoldingHit)
  else if daysToExpiry ≤ 0 then (true, .expiryHit)
  else (false, .noExit)

/-- The unrealized return `_check_exit_conditions` computes for an open trade:
`(current_value - entry_price) / entry_price` with the current value from
`_get_option_price`. -/
def exitPnlPct (env : BTEnv) (t : Trade) (currentDate : ℤ) (currentPrice : ℚ) : ℚ :=
  (getOptionPrice env currentDate currentPrice t.strike t.isCall (t.expiry - currentDate)
    - t.entryPrice) / t.entryPrice

/-- Mutable loop state of `run_backtest`: running capital, the at-most-one
open trade, the closed-trade list and the equity curve. -/
structure BTState where
  capital : ℚ
  openTrade : Option Trade
  trades : List Trade
  equityCurve : List (ℤ × ℚ)
deriving DecidableEq, Repr

/-- Daily phase 1 (lines 198-213): append one equity point, marking any open
position to the estimated current option value. -/
def equityStep (env : BTEnv) (s : BTState) (bar : Bar) : BTState :=
  let equity :=
    match s.openTrade with
    | some t =>
        let currentOptionValue :=
          estimateOptionValue env.expFn bar.close t.strike t.isCall (t.expiry - bar.date)
        s.capital + (currentOptionValue - t.entryPrice) * (t.shares : ℚ) * 100
    | none => s.capital
  { s with equityCurve := s.equityCurve ++ [(bar.date, equity)] }

/-- Realized P&L of a trade closed at `exitPrice`:
`(exit_price - entry_price) * shares * 100`. -/
def tradePnl (t : Trade) (exitPrice : ℚ) : ℚ :=
  (exitPrice - t.entryPrice) * (t.shares : ℚ) * 100

/-- The closed-trade record produced when a position exits at `exitPrice` on
day `bar` with status `st` (`'closed'` for a triggered exit, `'expired'` for
the forced end-of-run closure). -/
def exitFill (t : Trade) (bar : Bar) (exitPrice : ℚ) (st : TradeStatus) : Trade :=
  { t with
    exitDate := some bar.date
    exitPrice := some exitPrice
    exitUnderlying := some bar.close
    pnl := some (tradePnl t exitPrice)
    pnlPct := some (tradePnl t exitPrice / (t.entryPrice * (t.shares : ℚ) * 100))
    status := st }

/-- The estimated option value a triggered exit fills at (line 224 of the
source uses the estimator directly, not the oracle). -/
def exitValue (env : BTEnv) (t : Trade) (bar : Bar) : ℚ :=
  estimateOptionValue env.expFn bar.close t.strike t.isCall (t.expiry - bar.date)

/-- Daily phase 2 (lines 216-245): if a position is open and an exit condition
fires, close it at the estimated option value, realize the P&L into capital
and append the closed trade. -/
def exitStep (env : BTEnv) (cfg : BTConfig) (s : BTState) (bar : Bar) : BTState :=
  match s.openTrade with
  | some t =>
      let fired := (checkExitConditions env t bar.date bar.close
        cfg.profitTarget cfg.stopLoss cfg.maxHoldingDays).1
      if fired then
        { s with
          capital := s.capital + tradePnl t (exitValue env t bar)
          trades := s.trades ++ [exitFill t bar (exitValue env t bar) .closed]
          openTrade := none }
      else s
  | none => s

/-- Daily phase 3 (lines 248-340): with no open position and at least 20 prior
bars, on an entry signal open a position of
`int(capital * position_size / (premium * 100))` contracts (minimum 1) at the
selected strike, expiring 30 days out. -/
def entryStep (env : BTEnv) (cfg : BTConfig) (s : BTState) (i : ℕ) (bar : Bar) : BTState :=
  match s.openTrade with
  | some _ => s
  | none =>
      if 20 ≤ i ∧ env.enter i bar then
        let positionValue := s.capital * cfg.positionSize
        let isCall := env.direction i bar
        let strike := env.strikeOf i bar
        let optionPrice := getOptionPrice env bar.date bar.close strike isCall 30
        let shares₀ := pyInt (positionValue / (optionPrice * 100))
        let shares := if shares₀ = 0 then 1 else shares₀
        let t : Trade :=
          { entryDate := bar.date
            isCall := isCall
            strike := strike
            entryPrice := optionPrice
            shares := shares
            expiry := bar.date + 30
            entryUnderlying := bar.close }
        { s with openTrade := some t }
      else s

/-- One simulated day: equity point, then exit check, then entry check. -/
def btStep (env : BTEnv) (cfg : BTConfig) (s : BTState) (ib : ℕ × Bar) : BTState :=
  entryStep env cfg (exitStep env cfg (equityStep env s ib.2) ib.2) ib.1 ib.2

/-- End-of-run forced closure (lines 343-362): any still-open position is
closed at the last day's price with zero days to expiry and status
`'expired'`. -/
def closeAtEnd (env : BTEnv) (data : List Bar) (s : BTState) : BTState :=
  match s.openTrade, data.getLast? with
  | some t, some lastBar =>
      let exitPrice := getOptionPrice env lastBar.date lastBar.close t.strike t.isCall 0
      { s with
        capital := s.capital + tradePnl t exitPrice
        trades := s.trades ++ [exitFill t lastBar exitPrice .expired]
        openTrade := none }
  | _, _ => s

/-- The fields of `BacktestResult` the claims are about. -/
structure BacktestResult where
  trades : List Trade
  initialCapital : ℚ
  finalCapital : ℚ
  totalPnl : ℚ
  totalReturn : ℚ
  numTrades : ℕ
  equityCurve : List (ℤ × ℚ)
deriving DecidableEq, Repr

/-- `_calculate_results` (backtest_engine.py lines 776-854), restricted to the
claimed fields: with no trades a flat result carrying the equity curve,
otherwise totals over the realized trade P&L values. -/
def calculateResults (initial capital : ℚ) (trades : List Trade)
    (equityCurve : List (ℤ × ℚ)) : BacktestResult :=
  if trades.isEmpty then
    { trades := []
      initialCapital := initial
      finalCapital := capital
      totalPnl := 0
      totalReturn := 0
      numTrades := 0
      equityCurve := equityCurve }
  else
    let totalPnl := (trades.filterMap (·.pnl)).sum
    { trades := trades
      initialCapital := initial
      finalCapital := capital
      totalPnl := totalPnl
      totalReturn := totalPnl / initial
      numTrades := trades.length
      equityCurve := equityCurve }

/-- Initial loop state. -/
def initState (cfg : BTConfig) : BTState :=
  { capital := cfg.initialCapital, openTrade := none, trades := [], equityCurve := [] }

/-- The flat trivial result of the insufficient-data early return
(backtest_engine.py lines 143-174). -/
def flatResult (cfg : BTConfig) (startDate : ℤ) : BacktestResult :=
  { trades := []
    initialCapital := cfg.initialCapital
    finalCapital := cfg.initialCapital
    totalPnl := 0
    totalReturn := 0
    numTrades := 0
    equityCurve := [(startDate, cfg.initialCapital)] }

/-- `run_backtest` on fetched data: the flat trivial result when the fetch
failed or returned fewer than 20 bars, otherwise the day-by-day simulation
followed by forced closure and result calculation. -/
def runBacktest (env : BTEnv) (cfg : BTConfig) (startDate : ℤ)
    (fetched : Option (List Bar)) : BacktestResult :=
  match fetched with
  | none => flatResult cfg startDate
  | some data =>
      if data.length < 20 then flatResult cfg startDate
      else
        let s := List.foldl (btStep env cfg) (initState cfg) data.enum
        let s := closeAtEnd env data s
        calculateResults cfg.initialCapital s.capital s.trades s.equityCurve

/-- The per-day state trace of the simulation loop (state before day 0, then
after each simulated day). -/
def btTrace (env : BTEnv) (cfg : BTConfig) (data : List Bar) : List BTState :=
  List.scanl (btStep env cfg) (initState cfg) data.enum

/-- Number of open positions a state holds: the open slot plus any trade
recorded with status `'open'`. -/
def openCount (s : BTState) : ℕ :=
  (if s.openTrade.isSome then 1 else 0) +
    (s.trades.filter (fun t => t.status = TradeStatus.opened)).length

/-! ## Concrete fixtures

A deterministic environment and small data sets used by the closed witness and
counterexample statements.  The oracle always fails (the documented fallback
path), every day signals entry, the direction is `'long_call'` and the strike
is a fixed 110. -/

/-- Concrete environment for closed statements. -/
def trivialEnv : BTEnv :=
  { expFn := constOne
    oracle := fun _ _ _ _ _ => none
    enter := fun _ _ => true
    direction := fun _ _ => true
    strikeOf := fun _ _ => 110 }

/-- 21 days of constant price 100: long enough to clear the 20-bar minimum and
the 20-day entry warm-up, producing exactly one trade. -/
def flatData : List Bar := (List.range 21).map (fun j => { date := (j : ℤ), close := 100 })

/-- A 5-day price series, the short-history scenario of the spec. -/
def shortData : List Bar := (List.range 5).map (fun j => { date := (j : ℤ), close := 100 })

/-- Sum of the realized P&L values recorded in a trade list
(`sum(t.pnl for t in trades if t.pnl is not None)`). -/
def realizedPnlSum (trades : List Trade) : ℚ := (trades.filterMap (·.pnl)).sum

/-- The P&L identity of a closed trade: the recorded `pnl` is
`(exit_premium - entry_premium) * quantity * 100` and the recorded `pnl_pct`
is `pnl / (entry_premium * quantity * 100)`. -/
def pnlConsistent (x : Trade) : Prop :=
  ∃ ep : ℚ, x.exitPrice = some ep ∧
    x.pnl = some ((ep - x.entryPrice) * (x.shares : ℚ) * 100) ∧
    x.pnlPct = some
      (((ep - x.entryPrice) * (x.shares : ℚ) * 100) /
        (x.entryPrice * (x.shares : ℚ) * 100))

/-! ## Helper lemmas -/

section
attribute [local semireducible] Rat.add Rat.mul Rat.sub Rat.inv

theorem foldl_preserves {σ α : Type _} (f : σ → α → σ) (P : σ → Prop)
    (hstep : ∀ s a, P s → P (f s a)) :
    ∀ (l : List α) (s₀ : σ), P s₀ → P (List.foldl f s₀ l) := by
  intro l
  induction l with
  | nil => exact fun s₀ h => h
  | cons a l ih => exact fun s₀ h => ih (f s₀ a) (hstep s₀ a h)

theorem scanl_preserves {σ α : Type _} (f : σ → α → σ) (P : σ → Prop)
    (hstep : ∀ s a, P s → P (f s a)) :
    ∀ (l : List α) (s₀ : σ), P s₀ → ∀ s ∈ List.scanl f s₀ l, P s := by
  intro l
  induction l with
  | nil =>
      intro s₀ h s hs
      rw [List.scanl_nil, List.mem_singleton] at hs
      rwa [hs]
  | cons a l ih =>
      intro s₀ h s hs
      rw [List.scanl_cons, List.singleton_append, List.mem_cons] at hs
      rcases hs with rfl | hs
      · exact h
      · exact ih (f s₀ a) (hstep s₀ a h) s hs

theorem equityStep_trades (env : BTEnv) (s : BTState) (bar : Bar) :
    (equityStep env s bar).trades = s.trades := rfl

theorem equityStep_capital (env : BTEnv) (s : BTState) (bar : Bar) :
    (equityStep env s bar).capital = s.capital := rfl

theorem equityStep_openTrade (env : BTEnv) (s : BTState) (bar : Bar) :
    (equityStep env s bar).openTrade = s.openTrade := rfl

theorem entryStep_trades (env : BTEnv) (cfg : BTConfig) (s : BTState) (i : ℕ) (bar : Bar) :
    (entryStep env cfg s i bar).trades = s.trades := by
  unfold entryStep
  cases s.openTrade with
  | some t => rfl
  | none => dsimp only; split <;> rfl

theorem entryStep_capital (env : BTEnv) (cfg : BTConfig) (s : BTState) (i : ℕ) (bar : Bar) :
    (entryStep env cfg s i bar).capital = s.capital := by
  unfold entryStep
  cases s.openTrade with
  | some t => rfl
  | none => dsimp only; split <;> rfl

theorem exitStep_eq (env : BTEnv) (cfg : BTConfig) (s : BTState) (bar : Bar) :
    exitStep env cfg s bar = s ∨
    ∃ t : Trade, s.openTrade = some t ∧
      exitStep env cfg s bar =
        { s with
          capital := s.capital + tradePnl t (exitValue env t bar)
          trades := s.trades ++ [exitFill t bar (exitValue env t bar) .closed]
          openTrade := none } := by
  unfold exitStep
  cases h : s.openTrade with
  | none => exact Or.inl rfl
  | some t =>
      dsimp only
      split
      · exact Or.inr ⟨t, rfl, rfl⟩
      · exact Or.inl rfl

theorem closeAtEnd_eq (env : BTEnv) (data : List Bar) (s : BTState) :
    closeAtEnd env data s = s ∨
    ∃ (t : Trade) (lastBar : Bar), s.openTrade = some t ∧ data.getLast? = some lastBar ∧
      closeAtEnd env data s =
        { s with
          capital := s.capital +
            tradePnl t (getOptionPrice env lastBar.date lastBar.close t.strike t.isCall 0)
          trades := s.trades ++
            [exitFill t lastBar (getOptionPrice env lastBar.date lastBar.close t.strike t.isCall 0) .expired]
          openTrade := none } := by
  unfold closeAtEnd
  cases h : s.openTrade with
  | none => exact Or.inl rfl
  | some t =>
      cases hl : data.getLast? with
      | none => exact Or.inl rfl
      | some lastBar => exact Or.inr ⟨t, lastBar, rfl, rfl, rfl⟩

theorem exitFill_status (t : Trade) (bar : Bar) (v : ℚ) (st : TradeStatus) :
    (exitFill t bar v st).status = st := rfl

theorem exitFill_consistent (t : Trade) (bar : Bar) (v : ℚ) (st : TradeStatus) :
    pnlConsistent (exitFill t bar v st) :=
  ⟨v, rfl, rfl, rfl⟩

theorem exitFill_pnl (t : Trade) (bar : Bar) (v : ℚ) (st : TradeStatus) :
    (exitFill t bar v st).pnl = some (tradePnl t v) := rfl

theorem btStep_trades_closed (env : BTEnv) (cfg : BTConfig) (s : BTState) (ib : ℕ × Bar)
    (h : s.trades.filter (fun t => t.status = TradeStatus.opened) = []) :
    (btStep env cfg s ib).trades.filter (fun t => t.status = TradeStatus.opened) = [] := by
  unfold btStep
  rw [entryStep_trades]
  rcases exitStep_eq env cfg (equityStep env s ib.2) ib.2 with heq | ⟨t, _, heq⟩
  · rw [heq, equityStep_trades, h]
  · rw [heq]
    dsimp only
    rw [equityStep_trades, List.filter_append, h]
    simp [exitFill_status]

theorem btStep_capital_ledger (env : BTEnv) (cfg : BTConfig) (s : BTState) (ib : ℕ × Bar)
    (init : ℚ) (h : s.capital = init + realizedPnlSum s.trades) :
    (btStep env cfg s ib).capital = init + realizedPnlSum (btStep env cfg s ib).trades := by
  unfold btStep
  rw [entryStep_capital, entryStep_trades]
  rcases exitStep_eq env cfg (equityStep env s ib.2) ib.2 with heq | ⟨t, _, heq⟩
  · rw [heq, equityStep_capital, equityStep_trades]; exact h
  · rw [heq]
    dsimp only
    rw [equityStep_capital, equityStep_trades]
    unfold realizedPnlSum at h ⊢
    rw [List.filterMap_append, List.sum_append, h]
    simp [exitFill_pnl]
    ring

theorem btStep_pnlConsistent (env : BTEnv) (cfg : BTConfig) (s : BTState) (ib : ℕ × Bar)
    (h : ∀ x ∈ s.trades, pnlConsistent x) :
    ∀ x ∈ (btStep env cfg s ib).trades, pnlConsistent x := by
  unfold btStep
  rw [entryStep_trades]
  rcases exitStep_eq env cfg (equityStep env s ib.2) ib.2 with heq | ⟨t, _, heq⟩
  · rw [heq, equityStep_trades]; exact h
  · rw [heq]
    dsimp only
    rw [equityStep_trades]
    intro x hx
    rcases List.mem_append.mp hx with hx | hx
    · exact h x hx
    · rw [List.mem_singleton] at hx
      subst hx
      exact exitFill_consistent ..

theorem closeAtEnd_trades_closed (env : BTEnv) (data : List Bar) (s : BTState)
    (h : s.trades.filter (fun t => t.status = TradeStatus.opened) = []) :
    (closeAtEnd env data s).trades.filter (fun t => t.status = TradeStatus.opened) = [] := by
  rcases closeAtEnd_eq env data s with heq | ⟨t, lastBar, _, _, heq⟩
  · rw [heq]; exact h
  · rw [heq]
    dsimp only
    rw [List.filter_append, h]
    simp [exitFill_status]

theorem closeAtEnd_capital_ledger (env : BTEnv) (data : List Bar) (s : BTState)
    (init : ℚ) (h : s.capital = init + realizedPnlSum s.trades) :
    (closeAtEnd env data s).capital = init + realizedPnlSum (closeAtEnd env data s).trades := by
  rcases closeAtEnd_eq env data s with heq | ⟨t, lastBar, _, _, heq⟩
  · rw [heq]; exact h
  · rw [heq]
    dsimp only
    unfold realizedPnlSum at h ⊢
    rw [List.filterMap_append, List.sum_append, h]
    simp [exitFill_pnl]
    ring

theorem closeAtEnd_pnlConsistent (env : BTEnv) (data : List Bar) (s : BTState)
    (h : ∀ x ∈ s.trades, pnlConsistent x) :
    ∀ x ∈ (closeAtEnd env data s).trades, pnlConsistent x := by
  rcases closeAtEnd_eq env data s with heq | ⟨t, lastBar, _, _, heq⟩
  · rw [heq]; exact h
  · rw [heq]
    dsimp only
    intro x hx
    rcases List.mem_append.mp hx with hx | hx
    · exact h x hx
    · rw [List.mem_singleton] at hx
      subst hx
      exact exitFill_consistent ..

theorem calculateResults_trades (init cap : ℚ) (tr : List Trade) (eqc : List (ℤ × ℚ)) :
    (calculateResults init cap tr eqc).trades = if tr.isEmpty then [] else tr := by
  unfold calculateResults
  split <;> rfl

theorem calculateResults_finalCapital (init cap : ℚ) (tr : List Trade) (eqc : List (ℤ × ℚ)) :
    (calculateResults init cap tr eqc).finalCapital = cap := by
  unfold calculateResults
  split <;> rfl

theorem calculateResults_totalReturn (init cap : ℚ) (tr : List Trade) (eqc : List (ℤ × ℚ)) :
    (calculateResults init cap tr eqc).totalReturn
      = if tr.isEmpty then 0 else realizedPnlSum tr / init := by
  unfold calculateResults realizedPnlSum
  split <;> rfl

/-! ## Claim theorems -/

/-- C1: Single-position invariant: for every input price series, configuration
and environment (hence every strategy configuration), at every simulated day
of the run the state holds at most one open position, and every trade ever
recorded in the trade list has already been converted to a non-open
(closed/expired) record — conversion happens exactly at its exit trigger or at
the forced end-of-run closure, and the entry branch of the day step only fires
when the open slot is empty. -/
theorem backtest_single_position (env : BTEnv) (cfg : BTConfig) (data : List Bar)
    (s : BTState) (hs : s ∈ btTrace env cfg data) :
    openCount s ≤ 1 ∧ s.trades.filter (fun t => t.status = TradeStatus.opened) = [] := by
  have key : s.trades.filter (fun t => t.status = TradeStatus.opened) = [] :=
    scanl_preserves (btStep env cfg)
      (fun st => st.trades.filter (fun t => t.status = TradeStatus.opened) = [])
      (fun st a h => btStep_trades_closed env cfg st a h)
      data.enum (initState cfg) rfl s hs
  refine ⟨?_, key⟩
  unfold openCount
  rw [key]
  cases s.openTrade <;> simp

/-- Witness for C1 at a concrete input: the initial state of the trace of a
concrete run. -/
theorem backtest_single_position_witness :
    openCount (initState {}) ≤ 1 ∧
      (initState {}).trades.filter (fun t => t.status = TradeStatus.opened) = [] :=
  backtest_single_position trivialEnv {} [] (initState {}) (by
    rw [btTrace]
    simp [List.scanl_nil])

/-- C7: Short-history soft failure: when the fetched price history has fewer
than 20 bars, `run_backtest` takes the early flat-result return, so the result
has no trades, zero total return and a final capital equal to the initial
capital (and, the branch being a plain value, no exception is possible). -/
theorem short_history_flat (env : BTEnv) (cfg : BTConfig) (startDate : ℤ)
    (data : List Bar) (h : data.length < 20) :
    (runBacktest env cfg startDate (some data)).numTrades = 0 ∧
    (runBacktest env cfg startDate (some data)).totalReturn = 0 ∧
    (runBacktest env cfg startDate (some data)).finalCapital = cfg.initialCapital := by
  unfold runBacktest
  dsimp only
  rw [if_pos h]
  exact ⟨rfl, rfl, rfl⟩

/-- Witness for C7: the 5-day price series of the spec scenario. -/
theorem short_history_flat_witness :
    (runBacktest trivialEnv {} 0 (some shortData)).numTrades = 0 ∧
    (runBacktest trivialEnv {} 0 (some shortData)).totalReturn = 0 ∧
    (runBacktest trivialEnv {} 0 (some shortData)).finalCapital = ({} : BTConfig).initialCapital :=
  short_history_flat trivialEnv {} 0 shortData (by decide)

/-- C8: ClosedTrade P&L identity: every trade the returned result records —
whether closed by an exit trigger or by the forced end-of-run closure —
carries `pnl = (exit_premium - entry_premium) * quantity * 100` and
`pnl_pct = pnl / (entry_premium * quantity * 100)` exactly. -/
theorem closedTrade_pnl_identity (env : BTEnv) (cfg : BTConfig) (startDate : ℤ)
    (fetched : Option (List Bar)) :
    ∀ x ∈ (runBacktest env cfg startDate fetched).trades, pnlConsistent x := by
  cases fetched with
  | none => intro x hx; simp [runBacktest, flatResult] at hx
  | some data =>
      unfold runBacktest
      dsimp only
      split
      · intro x hx; simp [flatResult] at hx
      · have hfold : ∀ x ∈ (List.foldl (btStep env cfg) (initState cfg) data.enum).trades,
            pnlConsistent x :=
          foldl_preserves (btStep env cfg) (fun st => ∀ x ∈ st.trades, pnlConsistent x)
            (fun st a h => btStep_pnlConsistent env cfg st a h)
            data.enum (initState cfg) (by intro x hx; simp [initState] at hx)
        have hclose := closeAtEnd_pnlConsistent env data
          (List.foldl (btStep env cfg) (initState cfg) data.enum) hfold
        intro x hx
        rw [calculateResults_trades] at hx
        by_cases hemp : (closeAtEnd env data
            (List.foldl (btStep env cfg) (initState cfg) data.enum)).trades.isEmpty
        · rw [if_pos hemp] at hx
          simp at hx
        · rw [if_neg hemp] at hx
          exact hclose x hx

/-- Witness for C8: the single expired trade of a concrete 21-day run. -/
theorem closedTrade_pnl_identity_witness :
    pnlConsistent
      { entryDate := 20, isCall := true, strike := 110, entryPrice := 3/2, shares := 6,
        expiry := 50, entryUnderlying := 100, exitDate := some 20, exitPrice := some 0,
        pnl := some (-900), pnlPct := some (-1), status := TradeStatus.expired,
        exitUnderlying := some 100 } :=
  closedTrade_pnl_identity trivialEnv {} 0 (some flatData) _ (by decide)

/-- C10: Capital ledger invariant: the returned final capital is the initial
capital plus the sum of the realized trade P&L values, and (for a nonzero
initial capital, which the division in the source presupposes) the total
return equals `(final_capital - initial_capital) / initial_capital`. -/
theorem capital_ledger (env : BTEnv) (cfg : BTConfig) (startDate : ℤ)
    (fetched : Option (List Bar)) (h : cfg.initialCapital ≠ 0) :
    (runBacktest env cfg startDate fetched).finalCapital
      = cfg.initialCapital + realizedPnlSum (runBacktest env cfg startDate fetched).trades ∧
    (runBacktest env cfg startDate fetched).totalReturn
      = ((runBacktest env cfg startDate fetched).finalCapital - cfg.initialCapital)
          / cfg.initialCapital := by
  cases fetched with
  | none =>
      constructor <;> simp [runBacktest, flatResult, realizedPnlSum]
  | some data =>
      unfold runBacktest
      dsimp only
      split
      · constructor <;> simp [flatResult, realizedPnlSum]
      · have hfold : (List.foldl (btStep env cfg) (initState cfg) data.enum).capital
            = cfg.initialCapital
              + realizedPnlSum (List.foldl (btStep env cfg) (initState cfg) data.enum).trades :=
          foldl_preserves (btStep env cfg)
            (fun st => st.capital = cfg.initialCapital + realizedPnlSum st.trades)
            (fun st a hst => btStep_capital_ledger env cfg st a cfg.initialCapital hst)
            data.enum (initState cfg) (by simp [initState, realizedPnlSum])
        have hclose := closeAtEnd_capital_ledger env data
          (List.foldl (btStep env cfg) (initState cfg) data.enum) cfg.initialCapital hfold
        rw [calculateResults_finalCapital, calculateResults_totalReturn,
          calculateResults_trades]
        by_cases hemp : (closeAtEnd env data
            (List.foldl (btStep env cfg) (initState cfg) data.enum)).trades.isEmpty
        · rw [List.isEmpty_iff] at hemp
          rw [hemp] at hclose
          simp only [realizedPnlSum, List.filterMap_nil, List.sum_nil, add_zero] at hclose
          rw [hemp]
          constructor
          · simp [realizedPnlSum, hclose]
          · simp [hclose]
        · rw [if_neg (by rw [List.isEmpty_iff] at hemp ⊢; exact hemp),
            if_neg (by rw [List.isEmpty_iff] at hemp ⊢; exact hemp)]
          constructor
          · exact hclose
          · rw [hclose]
            field_simp

/-- Witness for C10: a concrete 21-day run with one trade. -/
theorem capital_ledger_witness :
    (runBacktest trivialEnv {} 0 (some flatData)).finalCapital
      = ({} : BTConfig).initialCapital
        + realizedPnlSum (runBacktest trivialEnv {} 0 (some flatData)).trades ∧
    (runBacktest trivialEnv {} 0 (some flatData)).totalReturn
      = ((runBacktest trivialEnv {} 0 (some flatData)).finalCapital
          - ({} : BTConfig).initialCapital) / ({} : BTConfig).initialCapital :=
  capital_ledger trivialEnv {} 0 (some flatData) (by decide)


/-- C2: Exit-condition priority: `_check_exit_conditions` tests, in this fixed
order, (a) unrealized return at or above the profit target, (b) unrealized
return at or below the stop loss, (c) holding days reaching the maximum,
(d) days to expiry at or below zero, returns the first trigger that fires with
a distinct reason tag, and returns the no-exit pair when none fires. -/
theorem exit_priority (env : BTEnv) (t : Trade) (currentDate : ℤ) (currentPrice : ℚ)
    (profitTarget stopLoss : ℚ) (maxHoldingDays : ℤ) :
    (profitTarget ≤ exitPnlPct env t currentDate currentPrice →
      checkExitConditions env t currentDate currentPrice profitTarget stopLoss maxHoldingDays
        = (true, .profitTargetHit)) ∧
    (exitPnlPct env t currentDate currentPrice < profitTarget →
      exitPnlPct env t currentDate currentPrice ≤ stopLoss →
      checkExitConditions env t currentDate currentPrice profitTarget stopLoss maxHoldingDays
        = (true, .stopLossHit)) ∧
    (exitPnlPct env t currentDate currentPrice < profitTarget →
      stopLoss < exitPnlPct env t currentDate currentPrice →
      maxHoldingDays ≤ currentDate - t.entryDate →
      checkExitConditions env t currentDate currentPrice profitTarget stopLoss maxHoldingDays
        = (true, .maxHoldingHit)) ∧
    (exitPnlPct env t currentDate currentPrice < profitTarget →
      stopLoss < exitPnlPct env t currentDate currentPrice →
      currentDate - t.entryDate < maxHoldingDays →
      t.expiry - currentDate ≤ 0 →
      checkExitConditions env t currentDate currentPrice profitTarget stopLoss maxHoldingDays
        = (true, .expiryHit)) ∧
    (exitPnlPct env t currentDate currentPrice < profitTarget →
      stopLoss < exitPnlPct env t currentDate currentPrice →
      currentDate - t.entryDate < maxHoldingDays →
      0 < t.expiry - currentDate →
      checkExitConditions env t currentDate currentPrice profitTarget stopLoss maxHoldingDays
        = (false, .noExit)) := by
  unfold checkExitConditions exitPnlPct
  dsimp only
  refine ⟨fun h1 => ?_, fun h1 h2 => ?_, fun h1 h2 h3 => ?_,
    fun h1 h2 h3 h4 => ?_, fun h1 h2 h3 h4 => ?_⟩
  · rw [if_pos h1]
  · rw [if_neg (not_le.mpr h1), if_pos h2]
  · rw [if_neg (not_le.mpr h1), if_neg (not_le.mpr h2), if_pos h3]
  · rw [if_neg (not_le.mpr h1), if_neg (not_le.mpr h2), if_neg (not_le.mpr h3), if_pos h4]
  · rw [if_neg (not_le.mpr h1), if_neg (not_le.mpr h2), if_neg (not_le.mpr h3),
      if_neg (not_le.mpr h4)]

/-- Witness for C2: a concrete open trade far past its profit target. -/
theorem exit_priority_witness :
    checkExitConditions trivialEnv
      { entryDate := 0, isCall := true, strike := 100, entryPrice := 1, shares := 1,
        expiry := 30, entryUnderlying := 100 } 1 120 (1/2) (-4/5) 30
      = (true, .profitTargetHit) :=
  (exit_priority trivialEnv
    { entryDate := 0, isCall := true, strike := 100, entryPrice := 1, shares := 1,
      expiry := 30, entryUnderlying := 100 } 1 120 (1/2) (-4/5) 30).1 (by decide)

/-- C3 counterexample: at zero days to expiry the estimator returns the
intrinsic value alone, which is 0 for an out-of-the-money option (spot 100,
strike 110, bullish) — below the claimed 0.05 floor.  The decay function is
never evaluated on this branch, so the constant-one stand-in is exact. -/
theorem premium_floor_counterexample :
    estimateOptionValue constOne 100 110 true 0 = 0 ∧
      ¬ (1/20 : ℚ) ≤ estimateOptionValue constOne 100 110 true 0 := by
  constructor <;> decide

/-- C3 amended: for every spot price > 0, strike, direction and decay
function, the estimated premium is at least the 0.05 floor whenever days to
expiry is positive; at nonpositive days to expiry the premium equals the
intrinsic value, which is nonnegative but can be below the floor. -/
theorem premium_floor (E : ℚ → ℚ) (spot strike : ℚ) (isCall : Bool) (dte : ℤ)
    (hspot : 0 < spot) (hdte : 0 < dte) :
    1/20 ≤ estimateOptionValue E spot strike isCall dte := by
  unfold estimateOptionValue timeValue intrinsicValue
  rw [if_pos hdte]
  dsimp only
  have h1 : (1/20 : ℚ) ≤ max (spot * (3 / 200) * ((dte : ℚ) / 30)
      * E (-(|spot - strike| / spot * 5))) (1/20) := le_max_right _ _
  have h2 : (0 : ℚ) ≤ if isCall then max (spot - strike) 0 else max (strike - spot) 0 := by
    split <;> exact le_max_right _ _
  linarith

/-- Witness for C3 amended at a concrete input. -/
theorem premium_floor_witness :
    (1/20 : ℚ) ≤ estimateOptionValue constOne 100 110 true 30 :=
  premium_floor constOne 100 110 true 30 (by norm_num) (by decide)

/-- C4 counterexample: the time value at the money is 1.5 at 30 days and 6 at
120 days (a factor of 4, linear in days to expiry), while any form
proportional to `sqrt(dte/252)` would only grow by a factor of 2 between these
inputs; hence no baseline rate and decay function realize the claimed form.
At the money the decay argument is 0, where the numpy exponential equals the
constant-one stand-in. -/
theorem timeValue_sqrt_form_counterexample :
    timeValue constOne 100 100 30 = 3/2 ∧ timeValue constOne 100 100 120 = 6 ∧
      ¬ specSqrtTimeValueForm (timeValue constOne) := by
  refine ⟨by decide, by decide, ?_⟩
  rintro ⟨r, g, h⟩
  have h1 := h 100 100 30 (by norm_num) (by decide)
  have h2 := h 100 100 120 (by norm_num) (by decide)
  rw [show timeValue constOne 100 100 30 = 3/2 from by decide] at h1
  rw [show timeValue constOne 100 100 120 = 6 from by decide] at h2
  push_cast at h1 h2
  have hs : Real.sqrt ((120 : ℝ)/252) = 2 * Real.sqrt ((30 : ℝ)/252) := by
    rw [show (120 : ℝ)/252 = 4 * ((30 : ℝ)/252) by norm_num,
      show (4 : ℝ) = 2^2 by norm_num, Real.sqrt_mul (by positivity), Real.sqrt_sq (by norm_num)]
  rw [hs] at h2
  have hfalse : (6 : ℝ) = 3 := by linear_combination h2 - 2 * h1
  norm_num at hfalse

/-- C4 amended: the estimator's time value has the linear form
`spot * 0.015 * (dte/30) * decay(moneyness)` floored at 0.05 for positive days
to expiry (not the claimed `sqrt(dte/252)` scaling), with the decay factor
positive and decreasing in moneyness for any monotone positive exponential,
and it is 0 once days to expiry is nonpositive. -/
theorem timeValue_linear_form (E : ℚ → ℚ) (hmono : Monotone E) (hpos : ∀ x, 0 < E x) :
    linearTimeValueForm (timeValue E) := by
  refine ⟨3/200, 1/20, fun m => E (-(m * 5)), ?_, fun x => hpos _, ?_, ?_⟩
  · intro x y hx hxy
    exact hmono (by linarith)
  · intro spot strike dte hs hd
    unfold timeValue
    rw [if_pos hd]
  · intro spot strike dte hd
    unfold timeValue
    rw [if_neg (by omega)]

/-- Witness for C4 amended: the constant-one decay is monotone and positive. -/
theorem timeValue_linear_form_witness :
    linearTimeValueForm (timeValue constOne) :=
  timeValue_linear_form constOne monotone_const (fun _ => one_pos)


/-- C5 counterexample: on a constant-price series (20 days at 100) both the
14-day average gain and average loss are 0, so `rs = 0/0` is NaN and the RSI
is NaN, not the claimed neutral 100. -/
theorem rsi_flat_counterexample :
    avgLoss (List.replicate 20 100) 19 = 0 ∧
    avgGain (List.replicate 20 100) 19 = 0 ∧
    rsiAt (List.replicate 20 100) 19 = FloatVal.nan := by
  refine ⟨by decide, by decide, by decide⟩

/-- C5 amended: at a day with a full window, a zero 14-day average loss gives
RSI exactly 100 provided the average gain is positive (`rs` is then +infinity
and `100 - 100/(1+rs) = 100`); when the average gain is also 0 — e.g. a
constant price series — the RSI is NaN instead. -/
theorem rsi_neutral_when_loss_zero (closes : List ℚ) (i : ℕ)
    (h14 : 14 ≤ i) (hlen : i < closes.length)
    (hloss : avgLoss closes i = 0) (hgain : 0 < avgGain closes i) :
    rsiAt closes i = FloatVal.fin 100 := by
  unfold rsiAt
  rw [if_pos ⟨h14, hlen⟩]
  dsimp only
  rw [hloss]
  have h1 : FloatVal.div (.fin (avgGain closes i)) (.fin 0) = .pinf := by
    simp only [FloatVal.div]
    rw [if_neg (by simp), if_pos hgain]
  rw [h1]
  show FloatVal.sub (.fin 100) (.fin 0) = .fin 100
  simp [FloatVal.sub, FloatVal.neg, FloatVal.add]

/-- Witness for C5 amended: a strictly rising series, average loss 0 and
average gain 1. -/
theorem rsi_neutral_when_loss_zero_witness :
    rsiAt ((List.range 15).map (fun j => (j : ℚ))) 14 = FloatVal.fin 100 :=
  rsi_neutral_when_loss_zero ((List.range 15).map (fun j => (j : ℚ))) 14
    (by decide) (by decide) (by decide) (by decide)

/-- C6 counterexample: with volatility 0.2, momentum 0, band percentile 0.5,
30 days to expiry and risk appetite `'ultra_conservative'`, the profile before
the risk-appetite stage is `aggressive`, but the risk-appetite stage clamps it
to `conservative` — a move of 3 rungs, more than one. -/
theorem ladder_jump_counterexample :
    dteAdjust 30 (bbAdjust (1/2) (momentumAdjust 0 (baseFromVol (1/5)))) = .aggressive ∧
    selectProfile (1/5) 0 (1/2) 30 "ultra_conservative" = .conservative ∧
    rungDist (selectProfile (1/5) 0 (1/2) 30 "ultra_conservative")
      (dteAdjust 30 (bbAdjust (1/2) (momentumAdjust 0 (baseFromVol (1/5))))) = 3 := by
  refine ⟨by decide, by decide, by decide⟩

theorem momentumAdjust_rungDist (m : ℚ) (s : RiskProfile) :
    rungDist (momentumAdjust m s) s ≤ 1 := by
  unfold momentumAdjust
  split_ifs with h1 h2 h3
  · rcases h2 with ⟨rfl, -⟩; decide
  · rcases h3 with ⟨rfl, -⟩; decide
  · simp [rungDist]
  · simp [rungDist]

theorem bbAdjust_rungDist (b : ℚ) (s : RiskProfile) :
    rungDist (bbAdjust b s) s ≤ 1 := by
  unfold bbAdjust
  split_ifs <;> first | (subst_vars; decide) | simp [rungDist]

theorem dteAdjust_rungDist (d : ℤ) (s : RiskProfile) (hs : s ≠ .speculative) :
    rungDist (dteAdjust d s) s ≤ 1 := by
  cases s <;> first
    | exact absurd rfl hs
    | (unfold dteAdjust; split_ifs <;> simp_all [rungDist] <;> decide)

theorem riskAdjust_rungDist (r : String) (s : RiskProfile)
    (hr : r ≠ "ultra_conservative") :
    rungDist (riskAdjust r s) s ≤ 1 := by
  unfold riskAdjust
  rw [if_neg hr]
  split_ifs
  · cases s <;> decide
  · simp [rungDist]

theorem riskAdjust_ultra (s : RiskProfile) (hs : s ≠ .ultraConservative) :
    riskAdjust "ultra_conservative" s = .conservative := by
  unfold riskAdjust
  rw [if_pos rfl, if_pos hs]

theorem baseFromVol_ne_speculative (v : ℚ) : baseFromVol v ≠ .speculative := by
  unfold baseFromVol
  split_ifs <;> decide

theorem momentumAdjust_ne_speculative (m : ℚ) (s : RiskProfile) (hs : s ≠ .speculative) :
    momentumAdjust m s ≠ .speculative := by
  unfold momentumAdjust
  split_ifs <;> first | decide | exact hs

theorem bbAdjust_ne_speculative (b : ℚ) (s : RiskProfile) (hs : s ≠ .speculative) :
    bbAdjust b s ≠ .speculative := by
  unfold bbAdjust
  split_ifs <;> first | decide | exact hs

/-- C6 amended: `select_otm_strategy` applies the volatility base, momentum,
band-percentile, time-to-expiry and risk-appetite adjustments in that fixed
order; the momentum, band-percentile and time-to-expiry adjustments each move
the profile by at most one rung, and so does the risk-appetite adjustment
whenever the appetite is not `'ultra_conservative'` — that setting instead
clamps every non-ultra profile straight to `conservative`, up to three rungs
down. -/
theorem strike_ladder_adjustments (v m b : ℚ) (d : ℤ) (r : String) :
    selectOtmStrategy v m b d r
      = strategies (riskAdjust r (dteAdjust d (bbAdjust b (momentumAdjust m (baseFromVol v))))) ∧
    rungDist (momentumAdjust m (baseFromVol v)) (baseFromVol v) ≤ 1 ∧
    rungDist (bbAdjust b (momentumAdjust m (baseFromVol v)))
      (momentumAdjust m (baseFromVol v)) ≤ 1 ∧
    rungDist (dteAdjust d (bbAdjust b (momentumAdjust m (baseFromVol v))))
      (bbAdjust b (momentumAdjust m (baseFromVol v))) ≤ 1 ∧
    (r ≠ "ultra_conservative" →
      rungDist (selectProfile v m b d r)
        (dteAdjust d (bbAdjust b (momentumAdjust m (baseFromVol v)))) ≤ 1) ∧
    (r = "ultra_conservative" →
      dteAdjust d (bbAdjust b (momentumAdjust m (baseFromVol v))) ≠ .ultraConservative →
      selectProfile v m b d r = .conservative) := by
  refine ⟨rfl, momentumAdjust_rungDist m (baseFromVol v),
    bbAdjust_rungDist b (momentumAdjust m (baseFromVol v)),
    dteAdjust_rungDist d _
      (bbAdjust_ne_speculative b _
        (momentumAdjust_ne_speculative m _ (baseFromVol_ne_speculative v))),
    fun hr => riskAdjust_rungDist r _ hr,
    fun hr hs => ?_⟩
  unfold selectProfile
  rw [hr]
  exact riskAdjust_ultra _ hs

/-- Witness for C6 amended at a concrete input with a non-ultra appetite. -/
theorem strike_ladder_adjustments_witness :
    rungDist (momentumAdjust 0 (baseFromVol (1/2))) (baseFromVol (1/2)) ≤ 1 ∧
    rungDist (selectProfile (1/2) 0 (1/2) 30 "balanced")
      (dteAdjust 30 (bbAdjust (1/2) (momentumAdjust 0 (baseFromVol (1/2))))) ≤ 1 :=
  ⟨(strike_ladder_adjustments (1/2) 0 (1/2) 30 "balanced").2.1,
   (strike_ladder_adjustments (1/2) 0 (1/2) 30 "balanced").2.2.2.2.1 (by decide)⟩


theorem listSum_replicate_fin (n : ℕ) (c : ℚ) :
    FloatVal.listSum (List.replicate n (.fin c)) = .fin (n * c) := by
  induction n with
  | zero => simp [FloatVal.listSum]
  | succ k ih =>
      rw [List.replicate_succ]
      show FloatVal.add (.fin c) (FloatVal.listSum (List.replicate k (.fin c))) = _
      rw [ih]
      show FloatVal.fin (c + k * c) = FloatVal.fin ((k + 1 : ℕ) * c)
      congr 1
      push_cast
      ring

theorem meanVal_replicate (n : ℕ) (c : ℚ) (hn : n ≠ 0) :
    meanVal (List.replicate n (.fin c)) = .fin c := by
  unfold meanVal
  rw [listSum_replicate_fin, List.length_replicate]
  simp only [FloatVal.div]
  rw [if_pos (Nat.cast_ne_zero.mpr hn)]
  congr 1
  exact mul_div_cancel_left₀ c (Nat.cast_ne_zero.mpr hn)

theorem varVal_replicate (n : ℕ) (c : ℚ) (hn : 2 ≤ n) :
    varVal (List.replicate n (.fin c)) = .fin 0 := by
  unfold varVal
  rw [meanVal_replicate n c (by omega), List.map_replicate]
  have hsub : FloatVal.mul (FloatVal.sub (.fin c) (.fin c)) (FloatVal.sub (.fin c) (.fin c))
      = .fin 0 := by
    simp [FloatVal.sub, FloatVal.neg, FloatVal.add, FloatVal.mul]
  rw [hsub, listSum_replicate_fin, List.length_replicate]
  simp only [FloatVal.div]
  rw [if_pos (by
    push_cast
    have h2 : (2 : ℚ) ≤ (n : ℚ) := by exact_mod_cast hn
    intro hfalse
    linarith)]
  congr 1
  simp

/-- C9 counterexample: the equity curve 100, 110, 121 has daily returns
0.1, 0.1 whose sample standard deviation is 0, yet the computed sharpe value
is plus infinity (a positive mean divided by a zero deviation, times the
positive sqrt(252) factor), not the claimed 0.  The square-root stand-in is
never consulted, since the variance hits the exact-zero branch. -/
theorem sharpe_zero_std_counterexample :
    dailyReturns [100, 110, 121] = List.replicate 2 (FloatVal.fin (1/10)) ∧
    stdVal (fun q => q) (dailyReturns [100, 110, 121]) = FloatVal.fin 0 ∧
    sharpeRatioOf (fun q => q) (1587/100) [100, 110, 121] = FloatVal.pinf := by
  refine ⟨by decide, by decide, by decide⟩

/-- C9 amended: the sharpe-like value is 0 whenever the equity curve yields no
daily returns (in particular for every curve with fewer than two points);
contrary to the claim, a zero standard deviation does not produce 0: a 2-point
curve (a single finite daily return) makes the `ddof = 1` sample standard
deviation NaN and the result NaN, and constant positive returns repeated at
least twice — standard deviation 0 — make the result plus infinity. -/
theorem sharpe_degenerate (sqrtFn : ℚ → ℚ) (s252 : ℚ) (equity : List ℚ) (n : ℕ) (c r : ℚ) :
    ((dailyReturns equity).length = 0 → sharpeRatioOf sqrtFn s252 equity = .fin 0) ∧
    (dailyReturns equity = [FloatVal.fin r] → sharpeRatioOf sqrtFn s252 equity = .nan) ∧
    (dailyReturns equity = List.replicate n (.fin c) → 2 ≤ n → 0 < c → 0 < s252 →
      sharpeRatioOf sqrtFn s252 equity = .pinf) := by
  refine ⟨?_, ?_, ?_⟩
  · intro h0
    unfold sharpeRatioOf
    dsimp only
    rw [h0, if_neg (lt_irrefl 0)]
  · intro h1
    have hmean : meanVal [FloatVal.fin r] = .fin r := by
      simp [meanVal, FloatVal.listSum, FloatVal.add, FloatVal.div]
    have hvar : varVal [FloatVal.fin r] = .nan := by
      unfold varVal
      rw [hmean]
      simp [FloatVal.sub, FloatVal.neg, FloatVal.add, FloatVal.mul, FloatVal.listSum,
        FloatVal.div]
    unfold sharpeRatioOf
    dsimp only
    rw [h1, if_pos (by simp)]
    unfold stdVal
    rw [hvar, hmean]
    rfl
  · intro hrep hn hc hs
    unfold sharpeRatioOf
    dsimp only
    rw [hrep, if_pos (by simp only [List.length_replicate]; omega)]
    unfold stdVal
    rw [varVal_replicate n c hn, meanVal_replicate n c (by omega)]
    have hsq : FloatVal.sqrtVal sqrtFn (.fin 0) = .fin 0 := by
      simp [FloatVal.sqrtVal]
    rw [hsq]
    have hdiv : FloatVal.div (.fin c) (.fin 0) = .pinf := by
      simp only [FloatVal.div]
      rw [if_neg (by simp), if_pos hc]
    rw [hdiv]
    simp only [FloatVal.mul]
    rw [if_pos hs]

/-- Witness for C9 amended: a doubling 3-point equity curve (constant returns
of 1, standard deviation 0) gives plus infinity, and a 2-point curve (one
daily return) gives NaN. -/
theorem sharpe_degenerate_witness :
    sharpeRatioOf (fun q => q) (1587/100) [100, 200, 400] = FloatVal.pinf ∧
    sharpeRatioOf (fun q => q) (1587/100) [100, 200] = FloatVal.nan :=
  ⟨(sharpe_degenerate (fun q => q) (1587/100) [100, 200, 400] 2 1 1).2.2
      (by decide) (by decide) (by decide) (by decide),
   (sharpe_degenerate (fun q => q) (1587/100) [100, 200] 2 1 1).2.1 (by decide)⟩

end
